import Mathlib

/-!
Verification development for the live-data cache and service-tracking core of
the trains board application (`app/middleware/cache.py`, `app/services/rail_api.py`,
`app/services/tfl_api.py`, `app/services/prefetch.py`).

The Python code is shallowly embedded: every method becomes an executable Lean
function over explicit state.  Wall-clock instants and TTL values are modelled
as integers (`time.time()` readings), cache backends as association lists or
finite-support functions, and the fallible SQLite connection as a boolean
availability flag on each backend round trip.
-/

/-! ## Python string primitives

`str.strip` / `str.upper` / `str.lower` / `str.startswith` are embedded as
structurally recursive functions over the character list, so every definition
below stays evaluable inside proofs. -/

/-- Python `str.upper` (ASCII case mapping). -/
def pyUpper (s : String) : String := ⟨s.data.map Char.toUpper⟩

/-- Python `str.lower` (ASCII case mapping). -/
def pyLower (s : String) : String := ⟨s.data.map Char.toLower⟩

/-- Python `str.strip()`: remove leading and trailing whitespace. -/
def pyStrip (s : String) : String :=
  ⟨((s.data.dropWhile Char.isWhitespace).reverse.dropWhile Char.isWhitespace).reverse⟩

/-- Python `str.startswith`. -/
def pyStartsWith (s pre : String) : Bool := pre.data.isPrefixOf s.data

/-! ## TTL cache layer (`app/middleware/cache.py`) -/

/-- Python truthiness of an optional TTL: `ttl or default` substitutes the
default both for `None` and for `0`, but keeps every other integer. -/
def pyTtlOr (ttl : Option Int) (dflt : Int) : Int :=
  match ttl with
  | none => dflt
  | some t => if t = 0 then dflt else t

/-- `CacheEntry` dataclass of the in-memory backend. -/
structure CacheEntry (α : Type) where
  data : α
  timestamp : Int
  ttl : Int
deriving DecidableEq, Repr

/-- `CacheEntry.is_expired`: `time.time() - self.timestamp > self.ttl`. -/
def CacheEntry.isExpired (e : CacheEntry α) (now : Int) : Bool :=
  now - e.timestamp > e.ttl

/-- In-memory `SimpleCache`.  The Python dict is modelled as an association
list; insertion order of distinct keys is irrelevant to every operation the
class exposes (`get`, `set`, `delete`, `clear`, `size`). -/
structure SimpleCache (α : Type) where
  entries : List (String × CacheEntry α)
  defaultTtl : Int
deriving DecidableEq, Repr

def SimpleCache.lookup (c : SimpleCache α) (key : String) : Option (CacheEntry α) :=
  (c.entries.find? (fun e => e.1 = key)).map (·.2)

/-- `SimpleCache.get`: miss on absent key; an expired entry is deleted and
reported as a miss; otherwise the stored data is returned.  The mutation of
`self._cache` is made explicit in the returned state. -/
def SimpleCache.get (c : SimpleCache α) (key : String) (now : Int) :
    Option α × SimpleCache α :=
  match c.entries.find? (fun e => e.1 = key) with
  | none => (none, c)
  | some entry =>
    if entry.2.isExpired now then
      (none, { c with entries := c.entries.filter (fun e => e.1 ≠ key) })
    else
      (some entry.2.data, c)

/-- `SimpleCache.set`: `ttl = ttl or self._default_ttl`, then overwrite the
key unconditionally with a fresh timestamp. -/
def SimpleCache.set (c : SimpleCache α) (key : String) (value : α)
    (ttl : Option Int) (now : Int) : SimpleCache α :=
  let t := pyTtlOr ttl c.defaultTtl
  { c with entries := c.entries.filter (fun e => e.1 ≠ key) ++ [(key, ⟨value, now, t⟩)] }

/-- `SimpleCache.delete`. -/
def SimpleCache.delete (c : SimpleCache α) (key : String) : SimpleCache α :=
  { c with entries := c.entries.filter (fun e => e.1 ≠ key) }

/-- `SimpleCache.clear`. -/
def SimpleCache.clear (c : SimpleCache α) : SimpleCache α :=
  { c with entries := [] }

/-- `SimpleCache.size`: `len(self._cache)`. -/
def SimpleCache.size (c : SimpleCache α) : Nat :=
  c.entries.length

/-- Failure of a SQLite backend round trip (`sqlite3.OperationalError` from
`_connect`/`execute` when the database is unavailable). -/
inductive DbError where
  | unavailable
deriving DecidableEq, Repr

/-- Row store of the `cache_entries` table: key, value, `expires_at`. -/
structure SQLiteCache (α : Type) where
  rows : List (String × α × Int)
  defaultTtl : Int
deriving DecidableEq, Repr

def SQLiteCache.lookup (s : SQLiteCache α) (key : String) : Option (α × Int) :=
  (s.rows.find? (fun r => r.1 = key)).map (·.2)

/-- `SQLiteCache.get`.  `avail = false` models an unavailable backend: the
Python method opens a connection with no surrounding `try`/`except`, so the
backend error propagates to the caller.  On the available path an entry with
`expires_at <= now` is deleted and reported as a miss. -/
def SQLiteCache.get (avail : Bool) (s : SQLiteCache α) (key : String) (now : Int) :
    Except DbError (Option α × SQLiteCache α) :=
  if avail then
    match s.rows.find? (fun r => r.1 = key) with
    | none => .ok (none, s)
    | some row =>
      if row.2.2 ≤ now then
        .ok (none, { s with rows := s.rows.filter (fun r => r.1 ≠ key) })
      else
        .ok (some row.2.1, s)
  else
    .error .unavailable

/-- `SQLiteCache.set`: `ttl = ttl or self._default_ttl`;
`expires_at = int(time.time()) + int(ttl)`; upsert on the key.  There is no
exception handling around the connection, so backend failure propagates.
(The write-count-triggered `cleanup_expired` sweep is not needed by any
property below and is omitted.) -/
def SQLiteCache.set (avail : Bool) (s : SQLiteCache α) (key : String) (value : α)
    (ttl : Option Int) (now : Int) : Except DbError (SQLiteCache α) :=
  if avail then
    let expiresAt := now + pyTtlOr ttl s.defaultTtl
    .ok { s with rows := s.rows.filter (fun r => r.1 ≠ key) ++ [(key, value, expiresAt)] }
  else
    .error .unavailable

/-- `SQLiteCache.delete`: unguarded `DELETE` round trip. -/
def SQLiteCache.delete (avail : Bool) (s : SQLiteCache α) (key : String) :
    Except DbError (SQLiteCache α) :=
  if avail then
    .ok { s with rows := s.rows.filter (fun r => r.1 ≠ key) }
  else
    .error .unavailable

/-! ## Fixed-station feed client (`app/services/rail_api.py`) -/

/-- `_normalize_crs`: empty/None is rejected; otherwise strip + uppercase and
require exactly three alphabetic characters. -/
def normalizeCrs (value : Option String) : Option String :=
  match value with
  | none => none
  | some s =>
    if s = "" then none
    else
      let crs := pyUpper (pyStrip s)
      if crs.length = 3 ∧ crs.data.all Char.isAlpha then some crs else none

/-- One entry of a detailed board payload's `trainServices` list, reduced to
the fields the tracking engine reads: the `serviceID` and the CRS codes of
the flattened previous/subsequent calling points. -/
structure ServiceEntry where
  serviceID : String
  prevCrs : List String
  subsCrs : List String
deriving DecidableEq, Repr

/-- A detailed (`GetArrDepBoardWithDetails`) payload: the station `crs` field
plus its `trainServices`. -/
structure DetailedPayload where
  crs : String
  services : List ServiceEntry
deriving DecidableEq, Repr

/-- The slice of `ServiceDetails` the follow algorithm consumes: the station
CRS the payload was built from and the calling-point CRS lists
(`all_previous_stops` / `all_subsequent_stops`). -/
structure RailServiceDetails where
  crs : String
  prevCrs : List String
  subsCrs : List String
deriving DecidableEq, Repr

/-- `_extract_service_from_detailed_payload`: first `trainServices` entry whose
`serviceID` matches, merged with the board-level `crs`. -/
def extractServiceFromDetailedPayload (data : Option DetailedPayload)
    (serviceId : String) : Option RailServiceDetails :=
  match data with
  | none => none
  | some d =>
    match d.services.find? (fun s => s.serviceID = serviceId) with
    | none => none
    | some m => some ⟨d.crs, m.prevCrs, m.subsCrs⟩

/-- The `add` helper shared by `_build_service_crs_candidates` and
`get_service_route_following`: normalize, drop rejects, de-duplicate while
preserving first-seen order (the `seen` set is exactly the set of elements
already in the accumulator). -/
def addCrsCandidate (acc : List String) (value : Option String) : List String :=
  match normalizeCrs value with
  | none => acc
  | some crs => if crs ∈ acc then acc else acc ++ [crs]

/-- `_build_service_crs_candidates`: previous stops, then the current station,
then subsequent stops, normalized and de-duplicated. -/
def buildServiceCrsCandidates (service : RailServiceDetails) : List String :=
  let acc := service.prevCrs.foldl (fun a c => addCrsCandidate a (some c)) []
  let acc := addCrsCandidate acc (some service.crs)
  service.subsCrs.foldl (fun a c => addCrsCandidate a (some c)) acc

/-- Upstream world of the detailed-board endpoint: what a (successful) fetch
of each station returns.  Claims C2/C3 only exercise the success path of
`_get_detailed_board`; its error mapping is covered through `get_board`. -/
structure RailWorld where
  upstream : String → DetailedPayload

/-- Mutable state touched by the follow algorithm: the
`board_details:<CRS>` cache, the two tracking-hint cache namespaces
(`service_last_seen_crs:<id>`, `service_route_candidates:<id>`), plus two
observation logs — every detailed-board request (`boardLog`) and every
upstream fetch that bypassed or missed the cache (`fetchLog`). -/
structure RailState where
  detailsCache : String → Option DetailedPayload
  lastSeen : String → Option String
  routeCandidates : String → Option (List String)
  boardLog : List String
  fetchLog : List String

/-- `_get_detailed_board`: cache-first on `use_cache`, otherwise fetch
upstream, write the payload back to the cache and report `from_cache = false`. -/
def getDetailedBoard (w : RailWorld) (s : RailState) (crsCode : String)
    (useCache : Bool) : DetailedPayload × Bool × RailState :=
  let crs := pyUpper crsCode
  let s := { s with boardLog := s.boardLog ++ [crs] }
  let fetch : DetailedPayload × Bool × RailState :=
    let d := w.upstream crs
    (d, false,
      { s with
        detailsCache := fun k => if k = crs then some d else s.detailsCache k
        fetchLog := s.fetchLog ++ [crs] })
  if useCache then
    match s.detailsCache crs with
    | some d => (d, true, s)
    | none => fetch
  else fetch

/-- `_cache_service_tracking`: refresh the candidate list (when non-empty) and
the last-seen station (when the payload CRS normalizes). -/
def cacheServiceTracking (serviceId : String) (service : RailServiceDetails)
    (s : RailState) : RailState :=
  let candidates := buildServiceCrsCandidates service
  let s :=
    if candidates ≠ [] then
      { s with routeCandidates := fun k =>
          if k = serviceId then some candidates else s.routeCandidates k }
    else s
  match normalizeCrs (some service.crs) with
  | some crs =>
    { s with lastSeen := fun k => if k = serviceId then some crs else s.lastSeen k }
  | none => s

/-- `_get_cached_service_route_candidates`: defensive re-normalization and
de-duplication of whatever list is cached. -/
def getCachedServiceRouteCandidates (s : RailState) (serviceId : String) :
    List String :=
  match s.routeCandidates serviceId with
  | none => []
  | some cached => cached.foldl (fun a v => addCrsCandidate a (some v)) []

/-- `_get_cached_last_seen_crs`. -/
def getCachedLastSeenCrs (s : RailState) (serviceId : String) : Option String :=
  match s.lastSeen serviceId with
  | none => none
  | some cached => normalizeCrs (some cached)

/-- `get_service_route`: fetch the detailed board (cache-first), look for the
service; on a cached miss re-fetch once bypassing the cache.  Tracking hints
are refreshed on every successful match. -/
def getServiceRoute (w : RailWorld) (s : RailState) (crsCode serviceId : String)
    (useCache : Bool) : Option RailServiceDetails × RailState :=
  let (data, fromCache, s1) := getDetailedBoard w s crsCode useCache
  match extractServiceFromDetailedPayload (some data) serviceId with
  | some service => (some service, cacheServiceTracking serviceId service s1)
  | none =>
    if useCache ∧ fromCache then
      let (fresh, _, s2) := getDetailedBoard w s1 crsCode false
      match extractServiceFromDetailedPayload (some fresh) serviceId with
      | some service => (some service, cacheServiceTracking serviceId service s2)
      | none => (none, s2)
    else
      (none, s1)

/-- Candidate loop of `get_service_route_following`: try each station in order
and stop at the first match (which refreshes the tracking hints once more). -/
def followCandidates (w : RailWorld) (serviceId : String) (useCache : Bool) :
    RailState → List String → Option RailServiceDetails × RailState
  | s, [] => (none, s)
  | s, crs :: rest =>
    match getServiceRoute w s crs serviceId useCache with
    | (some service, s1) => (some service, cacheServiceTracking serviceId service s1)
    | (none, s1) => followCandidates w serviceId useCache s1 rest

/-- `get_service_route_following`: ordered de-duplicated candidate list
(cached last-seen station, then the requested station, then the cached
calling-point candidates), capped at `max_stations_to_check`. -/
def getServiceRouteFollowing (w : RailWorld) (s : RailState)
    (crsCode serviceId : String) (useCache : Bool)
    (maxStationsToCheck : Nat := 10) : Option RailServiceDetails × RailState :=
  let requestedCrs := pyUpper crsCode
  let candidates := addCrsCandidate [] (getCachedLastSeenCrs s serviceId)
  let candidates := addCrsCandidate candidates (some requestedCrs)
  let candidates :=
    (getCachedServiceRouteCandidates s serviceId).foldl
      (fun a c => addCrsCandidate a (some c)) candidates
  if candidates = [] then (none, s)
  else followCandidates w serviceId useCache s (candidates.take maxStationsToCheck)

/-! ## Stop-point feed client (`app/services/tfl_api.py`) -/

/-- `_normalize_direction`: `None`/empty are falsy and give `None`; any other
string is stripped and lowercased (a whitespace-only string therefore yields
`some ""`). -/
def normalizeDirection (value : Option String) : Option String :=
  match value with
  | none => none
  | some s => if s = "" then none else some (pyLower (pyStrip s))

/-- Python truthiness of an optional string (`if target_direction:`):
`None` and `""` are falsy. -/
def optStrTruthy (o : Option String) : Bool :=
  match o with
  | none => false
  | some s => s ≠ ""

/-- `TflPrediction`, reduced to the fields `_match_prediction_for_click`
reads.  `datetime` values are modelled as integer epoch seconds; the
`_parse_iso_datetime` step on the hinted arrival is absorbed into passing the
already-parsed optional timestamp. -/
structure TflPrediction where
  lineId : Option String
  destinationNaptanId : Option String
  direction : Option String
  tripId : Option String
  vehicleId : Option String
  expectedArrival : Option Int
  timeToStation : Option Int
deriving DecidableEq, Repr

/-- `eta_distance_seconds`: absolute delta to the hinted target time when
both timestamps exist; otherwise `prediction.time_to_station or 10**9`
(Python `or`, so a zero `time_to_station` also falls back to `10**9`). -/
def etaDistanceSeconds (targetEta : Option Int) (p : TflPrediction) : Int :=
  match targetEta, p.expectedArrival with
  | some t, some e => |e - t|
  | _, _ =>
    match p.timeToStation with
    | some tts => if tts = 0 then 1000000000 else tts
    | none => 1000000000

/-- `min(candidates, key=...)` over a non-empty list: the first element of
minimal key, exactly as CPython's `min` resolves ties. -/
def pyMinBy (f : TflPrediction → Int) (x : TflPrediction)
    (xs : List TflPrediction) : TflPrediction :=
  xs.foldl (fun best y => if f y < f best then y else best) x

/-- Candidate filter pipeline of `_match_prediction_for_click`: restrict to
the requested line, then (when a destination id is given) to the requested
destination, then — only when it leaves something — to the hinted direction. -/
def clickCandidates (predictions : List TflPrediction)
    (lineId toStopId : String) (direction : Option String) :
    List TflPrediction :=
  let targetLine := pyStrip (pyLower lineId)
  let targetTo := pyStrip (pyLower toStopId)
  let targetDirection := normalizeDirection direction
  let c1 := predictions.filter
    (fun p => pyStrip (pyLower (p.lineId.getD "")) = targetLine)
  let c2 :=
    if targetTo ≠ "" then
      c1.filter (fun p => pyStrip (pyLower (p.destinationNaptanId.getD "")) = targetTo)
    else c1
  if optStrTruthy targetDirection then
    let directional := c2.filter (fun p => normalizeDirection p.direction = targetDirection)
    if directional ≠ [] then directional else c2
  else c2

/-- Trip-id matches among the filtered candidates. -/
def tripMatchesIn (candidates : List TflPrediction) (targetTrip : String) :
    List TflPrediction :=
  candidates.filter (fun p => pyStrip (p.tripId.getD "") = targetTrip)

/-- Vehicle-id matches among the filtered candidates. -/
def vehicleMatchesIn (candidates : List TflPrediction) (targetVehicle : String) :
    List TflPrediction :=
  candidates.filter (fun p => pyStrip (p.vehicleId.getD "") = targetVehicle)

/-- `_match_prediction_for_click`: filter, then disambiguate in strict
priority order — exact trip id, exact vehicle id, nearest ETA when a target
time was hinted, first remaining candidate. -/
def matchPredictionForClick (predictions : List TflPrediction)
    (lineId toStopId : String) (direction tripId vehicleId : Option String)
    (expectedArrival : Option Int) : Option TflPrediction :=
  let targetEta := expectedArrival
  let targetTrip := pyStrip (tripId.getD "")
  let targetVehicle := pyStrip (vehicleId.getD "")
  let candidates := clickCandidates predictions lineId toStopId direction
  match candidates with
  | [] => none
  | c0 :: crest =>
    let distance := etaDistanceSeconds targetEta
    let tm := tripMatchesIn (c0 :: crest) targetTrip
    if h1 : targetTrip ≠ "" ∧ tm ≠ [] then
      some (pyMinBy distance (tm.head (by exact h1.2)) (tm.tail))
    else
      let vm := vehicleMatchesIn (c0 :: crest) targetVehicle
      if h2 : targetVehicle ≠ "" ∧ vm ≠ [] then
        some (pyMinBy distance (vm.head (by exact h2.2)) (vm.tail))
      else if targetEta.isSome then
        some (pyMinBy distance c0 crest)
      else
        some c0

/-- Upstream TfL errors that `resolve_stop_point_id` catches
(`TflAPIError`, `TflBoardNotFoundError`); `_get_json` maps every HTTP,
network, auth and JSON failure into one of these. -/
inductive TflErr where
  | apiError
  | notFound
deriving DecidableEq, Repr

/-- One child of a hub stop point: its optional `id` and declared `modes`. -/
structure StopChild where
  id : Option String
  modes : List String
deriving DecidableEq, Repr

/-- The scan over `payload["children"]`: take the first child with a truthy
`id` among those whose modes intersect the configured mode set (a matching
child without an id does not stop the scan). -/
def pickHubChild (modes : List String) : List StopChild → Option String
  | [] => none
  | c :: rest =>
    if c.modes.any (fun m => modes.contains m) then
      match c.id with
      | some i => if i ≠ "" then some i else pickHubChild modes rest
      | none => pickHubChild modes rest
    else pickHubChild modes rest

/-- `resolve_stop_point_id`.  State: the `tfl:resolved_stop:<lower id>` cache,
modelled as mapping each key to its stored value together with the TTL it was
written with.  `w` is the `/StopPoint/<id>` children fetch; its failures are
the only exceptions the method can see and are caught.  Returns the resolved
id and the updated resolution cache. -/
def resolveStopPointId (modes : List String) (cacheTtl : Int)
    (w : String → Except TflErr (List StopChild))
    (cacheMap : String → Option (String × Int)) (stopPointId : String) :
    String × (String → Option (String × Int)) :=
  let normalized := pyStrip stopPointId
  if normalized = "" then (stopPointId, cacheMap)
  else
    let key := pyLower normalized
    let cachedHit : Option String :=
      match cacheMap key with
      | some (v, _) => if v ≠ "" then some v else none
      | none => none
    match cachedHit with
    | some v => (v, cacheMap)
    | none =>
      let resolved :=
        if pyStartsWith (pyUpper normalized) "HUB" then
          match w normalized with
          | .ok children => (pickHubChild modes children).getD normalized
          | .error _ => normalized
        else normalized
      (resolved, fun k => if k = key then some (resolved, cacheTtl) else cacheMap k)

/-! ## Fixed-station board fetch and error mapping (`get_board`, `_parse_board`) -/

/-- A raw `trainServices` row of the headline board payload.  Pydantic
validation of a row is modelled as a partial parse: `some t` stands for a row
that validates to the train `t`, `none` for a row that raises and is skipped
with a warning. -/
structure RailTrain where
  serviceId : Option String
deriving DecidableEq, Repr

/-- Raw headline board payload (`GetArrivalDepartureBoard` JSON). -/
structure RailBoardPayload where
  locationName : Option String
  crs : Option String
  trainServices : List (Option RailTrain)
deriving DecidableEq, Repr

/-- Parsed `Board` model, reduced to the fields the claims mention. -/
structure RailBoard where
  locationName : Option String
  crs : Option String
  trains : List RailTrain
deriving DecidableEq, Repr

/-- `_parse_board`: each row is parsed in its own `try`; a row that fails is
skipped and the remaining rows are kept. -/
def parseRailBoard (data : RailBoardPayload) : RailBoard :=
  { locationName := data.locationName
    crs := data.crs
    trains := data.trainServices.filterMap id }

/-- Outcome of the single upstream HTTP call in `get_board`:
a truthy JSON body, a falsy JSON body (`if not data:`), invalid JSON,
an HTTP status error raised by `raise_for_status`, or an
`httpx.RequestError` (timeout / connection failure). -/
inductive RailResponse where
  | ok (data : RailBoardPayload)
  | okEmpty
  | invalidJson
  | httpStatus (code : Nat)
  | netError
deriving DecidableEq, Repr

/-- The two exception types `get_board` raises: `BoardNotFoundError` and
`RailAPIError` with its HTTP-ish `status_code`. -/
inductive RailError where
  | boardNotFound
  | railApiError (statusCode : Nat)
deriving DecidableEq, Repr

/-- Python falsiness of an optional string field (`not board.location_name`). -/
def optStrFalsy (o : Option String) : Bool :=
  match o with
  | none => true
  | some s => s = ""

/-- `get_board` result plus the updated `board:<CRS>` cache. -/
structure RailBoardFetchResult where
  board : RailBoard
  fromCache : Bool
deriving DecidableEq, Repr

/-- `get_board`: cache-first; on miss or bypass, one upstream call whose
failures map to `BoardNotFoundError` (400/404, falsy payload, parsed board
with neither name nor CRS) or `RailAPIError` (401/403 and 5xx → 503, network
error → 503, invalid JSON → 502, other statuses → 502). -/
def railGetBoard (cacheMap : String → Option RailBoardPayload) (crsCode : String)
    (useCache : Bool) (resp : RailResponse) :
    Except RailError (RailBoardFetchResult × (String → Option RailBoardPayload)) :=
  let crs := pyUpper crsCode
  let cached : Option RailBoardPayload := if useCache then cacheMap crs else none
  match cached with
  | some payload => .ok ({ board := parseRailBoard payload, fromCache := true }, cacheMap)
  | none =>
    match resp with
    | .ok data =>
      let board := parseRailBoard data
      if optStrFalsy board.locationName ∧ optStrFalsy board.crs then
        .error .boardNotFound
      else
        .ok ({ board := board, fromCache := false },
          fun k => if k = crs then some data else cacheMap k)
    | .okEmpty => .error .boardNotFound
    | .invalidJson => .error (.railApiError 502)
    | .httpStatus code =>
      if code = 400 ∨ code = 404 then .error .boardNotFound
      else if code = 401 ∨ code = 403 then .error (.railApiError 503)
      else if 500 ≤ code ∧ code < 600 then .error (.railApiError 503)
      else .error (.railApiError 502)
    | .netError => .error (.railApiError 503)

/-! ## Prefetch coordinator (`app/services/prefetch.py`) -/

/-- How the awaited work body of one prefetch job ends: normal completion, a
handled TfL domain error, `asyncio.wait_for` timeout, or any other exception. -/
inductive JobOutcome where
  | success
  | upstreamError
  | timeout
  | unexpected
deriving DecidableEq, Repr

/-- Coordinator state: the in-flight job-key set (guarded by `_active_lock`,
so claim and release are atomic steps), a log of executed work bodies, and
the `_emit` console log. -/
structure PrefetchState where
  activeJobKeys : List String
  startedJobs : List String
  emits : List String
deriving DecidableEq, Repr

/-- `_claim_job`: atomically check-then-insert; a duplicate key is logged and
refused. -/
def claimJob (s : PrefetchState) (jobKey : String) : Bool × PrefetchState :=
  if jobKey ∈ s.activeJobKeys then
    (false, { s with emits := s.emits ++ ["skip duplicate " ++ jobKey] })
  else
    (true, { s with activeJobKeys := jobKey :: s.activeJobKeys })

/-- `_release_job`: atomic `discard`. -/
def releaseJob (s : PrefetchState) (jobKey : String) : PrefetchState :=
  { s with activeJobKeys := s.activeJobKeys.erase jobKey }

/-- The `_emit` line each handled outcome produces inside `_run_job`. -/
def outcomeEmit (jobKey : String) : JobOutcome → String
  | .success => "done " ++ jobKey
  | .upstreamError => "error(tfl) " ++ jobKey
  | .timeout => "timeout " ++ jobKey
  | .unexpected => "error " ++ jobKey

/-- Body of `_run_job` after the claim check: run the work under the
semaphore, handle every outcome, and release the claim in `finally`. -/
def runJobRest (s : PrefetchState) (jobKey : String) (claimed : Bool)
    (outcome : JobOutcome) : PrefetchState :=
  if claimed then
    let s1 := { s with
      emits := s.emits ++ ["start " ++ jobKey]
      startedJobs := s.startedJobs ++ [jobKey] }
    let s2 := { s1 with emits := s1.emits ++ [outcomeEmit jobKey outcome] }
    releaseJob s2 jobKey
  else s

/-- `_run_job` run to completion without interleaving. -/
def runJob (s : PrefetchState) (jobKey : String) (outcome : JobOutcome) :
    PrefetchState :=
  let (claimed, s1) := claimJob s jobKey
  runJobRest s1 jobKey claimed outcome

/-! ## Fixtures used by concrete scenarios -/

/-- Follow-algorithm state with cached detailed boards for two candidate
stations: `AAA` (which will be the requested station) and `BBB` (reached via
the cached calling-point candidate list for service `svc1`). -/
def c2StateP (pA pB : DetailedPayload) : RailState where
  detailsCache := fun c => if c = "AAA" then some pA else if c = "BBB" then some pB else none
  lastSeen := fun _ => none
  routeCandidates := fun k => if k = "svc1" then some ["BBB"] else none
  boardLog := []
  fetchLog := []

/-- Upstream world whose detailed boards are all empty. -/
def emptyBoardsWorld : RailWorld := ⟨fun c => ⟨c, []⟩⟩

/-- Follow-algorithm state for the ordering scenario: nothing cached for the
detailed boards, last-seen station `LLL` and cached calling-point candidates
`[LLL, CCA, CCB]` for service `svc1`. -/
def c3State : RailState where
  detailsCache := fun _ => none
  lastSeen := fun k => if k = "svc1" then some "LLL" else none
  routeCandidates := fun k => if k = "svc1" then some ["LLL", "CCA", "CCB"] else none
  boardLog := []
  fetchLog := []

/-- Twelve normalized candidate stations, more than `max_stations_to_check`. -/
def c3CapCandidates : List String :=
  ["CAA", "CAB", "CAC", "CAD", "CAE", "CAF", "CAG", "CAH", "CAI", "CAJ", "CAK", "CAL"]

/-- State whose tracking hint offers twelve candidates for `svc1`. -/
def c3CapState : RailState where
  detailsCache := fun _ => none
  lastSeen := fun _ => none
  routeCandidates := fun k => if k = "svc1" then some c3CapCandidates else none
  boardLog := []
  fetchLog := []

/-- World for the ordering scenario: the service appears only on station
`CCA`'s detailed board. -/
def c3MatchWorld : RailWorld :=
  ⟨fun c => if c = "CCA" then ⟨"CCA", [⟨"svc1", [], []⟩]⟩ else ⟨c, []⟩⟩

/-- Two same-line, same-destination, same-direction predictions with distinct
trip ids; `c4P1` is the nearer one to epoch second 100. -/
def c4P1 : TflPrediction :=
  { lineId := some "victoria", destinationNaptanId := some "940GZZLUWWL"
    direction := some "inbound", tripId := some "trip1", vehicleId := some "veh1"
    expectedArrival := some 100, timeToStation := some 60 }

def c4P2 : TflPrediction :=
  { lineId := some "victoria", destinationNaptanId := some "940GZZLUWWL"
    direction := some "inbound", tripId := some "trip2", vehicleId := some "veh2"
    expectedArrival := some 500, timeToStation := some 300 }

/-- Board payload with one malformed row between two valid rows. -/
def c6Payload : RailBoardPayload :=
  ⟨some "Leatherhead", some "LHD", [some ⟨some "s1"⟩, none, some ⟨none⟩]⟩

/-- A hub whose first child serves no configured mode (and has no id) while
its second child is a tube stop. -/
def c7Children : List StopChild := [⟨none, ["bus"]⟩, ⟨some "940GZZLUBND", ["tube"]⟩]

def c7World : String → Except TflErr (List StopChild) :=
  fun s => if s = "HUBBDS" then .ok c7Children else .error .apiError

/-- Upstream stop-point world that always fails. -/
def tflErrWorld : String → Except TflErr (List StopChild) := fun _ => .error .apiError

/-- Empty stop-resolution cache. -/
def emptyResolutionCache : String → Option (String × Int) := fun _ => none

/-- Two schedules of the same job key in immediate succession: both claim
checks happen before either job body finishes (the interleaving the dedup
guard exists for). -/
def scheduleTwiceInterleaved (s : PrefetchState) (jobKey : String)
    (o1 o2 : JobOutcome) : PrefetchState :=
  let (c1, s1) := claimJob s jobKey
  let (c2, s2) := claimJob s1 jobKey
  let s3 := runJobRest s2 jobKey c1 o1
  runJobRest s3 jobKey c2 o2

/-! ## Helper lemmas -/

theorem find?_filterNe_append {β : Type} (l : List (String × β)) (key : String) (x : β) :
    ((l.filter (fun e => e.1 ≠ key)) ++ [(key, x)]).find? (fun e => e.1 = key)
      = some (key, x) := by
  induction l with
  | nil => simp [List.find?]
  | cons a t ih =>
    by_cases h : a.1 = key
    · simp [List.filter_cons, h, ih]
    · simp [List.filter_cons, h, List.find?_cons, ih]

theorem find?_filterNe {β : Type} (l : List (String × β)) (key : String) :
    (l.filter (fun e => e.1 ≠ key)).find? (fun e => e.1 = key) = none := by
  rw [List.find?_eq_none]
  intro x hx
  simp only [List.mem_filter, decide_eq_true_eq] at hx
  simp [hx.2]

theorem filterNe_append_self {β : Type} (l : List (String × β)) (key : String) (x : β) :
    ((l.filter (fun e => e.1 ≠ key)) ++ [(key, x)]).filter (fun e => e.1 ≠ key)
      = l.filter (fun e => e.1 ≠ key) := by
  simp [List.filter_append, List.filter_filter]

theorem pyMinBy_mem (f : TflPrediction → Int) (x : TflPrediction)
    (xs : List TflPrediction) : pyMinBy f x xs ∈ x :: xs := by
  induction xs generalizing x with
  | nil => simp [pyMinBy]
  | cons y ys ih =>
    have step : pyMinBy f x (y :: ys) = pyMinBy f (if f y < f x then y else x) ys := rfl
    rw [step]
    have h := ih (if f y < f x then y else x)
    rcases List.mem_cons.mp h with h1 | h2
    · rw [h1]
      by_cases hc : f y < f x <;> simp [hc]
    · simp [h2]

theorem pyMinBy_le (f : TflPrediction → Int) (x : TflPrediction)
    (xs : List TflPrediction) : ∀ z ∈ x :: xs, f (pyMinBy f x xs) ≤ f z := by
  induction xs generalizing x with
  | nil =>
    intro z hz
    simp only [List.mem_singleton] at hz
    simp [pyMinBy, hz]
  | cons y ys ih =>
    intro z hz
    have step : pyMinBy f x (y :: ys) = pyMinBy f (if f y < f x then y else x) ys := rfl
    rw [step]
    have hx' : f (pyMinBy f (if f y < f x then y else x) ys)
        ≤ f (if f y < f x then y else x) :=
      ih (if f y < f x then y else x) _ (List.mem_cons_self _ _)
    rcases List.mem_cons.mp hz with h1 | hz'
    · subst h1
      refine hx'.trans ?_
      by_cases hc : f y < f z <;> simp [hc, le_of_lt]
    · rcases List.mem_cons.mp hz' with h2 | h3
      · subst h2
        refine hx'.trans ?_
        by_cases hc : f z < f x
        · simp [hc]
        · simp [hc, le_of_not_lt hc]
      · exact ih (if f y < f x then y else x) z (List.mem_cons_of_mem _ h3)

theorem pickHubChild_of_no_intersection (modes : List String)
    (children : List StopChild)
    (h : ∀ c ∈ children, c.modes.any (fun m => modes.contains m) = false) :
    pickHubChild modes children = none := by
  induction children with
  | nil => rfl
  | cons c rest ih =>
    have hc := h c (List.mem_cons_self _ _)
    have hrest := ih (fun x hx => h x (List.mem_cons_of_mem _ hx))
    simp only [pickHubChild]
    rw [hc]
    simp [hrest]

theorem pickHubChild_first_match (modes : List String) (children : List StopChild)
    (c : StopChild) (i : String)
    (hfind : children.find? (fun c => c.modes.any (fun m => modes.contains m)) = some c)
    (hid : c.id = some i) (hne : i ≠ "") :
    pickHubChild modes children = some i := by
  induction children with
  | nil => simp [List.find?] at hfind
  | cons a rest ih =>
    cases ha : a.modes.any (fun m => modes.contains m) with
    | true =>
      simp only [List.find?, ha] at hfind
      cases hfind
      simp only [pickHubChild]
      rw [ha, hid]
      simp [hne]
    | false =>
      simp only [List.find?, ha] at hfind
      have hrest := ih hfind
      simp only [pickHubChild]
      rw [ha]
      simp [hrest]

theorem cacheServiceTracking_logs (serviceId : String) (svc : RailServiceDetails)
    (s : RailState) :
    (cacheServiceTracking serviceId svc s).boardLog = s.boardLog
      ∧ (cacheServiceTracking serviceId svc s).fetchLog = s.fetchLog := by
  unfold cacheServiceTracking
  rcases h : normalizeCrs (some svc.crs) with _ | crs <;> dsimp only <;> split <;> simp

theorem cacheServiceTracking_lastSeen (serviceId : String) (svc : RailServiceDetails)
    (s : RailState) (crs : String) (h : normalizeCrs (some svc.crs) = some crs) :
    (cacheServiceTracking serviceId svc s).lastSeen serviceId = some crs := by
  unfold cacheServiceTracking
  rw [h]
  simp

theorem getServiceRoute_cachedMiss (w : RailWorld) (s : RailState)
    (crsCode serviceId : String) (p : DetailedPayload)
    (hCached : s.detailsCache (pyUpper crsCode) = some p)
    (hMiss : extractServiceFromDetailedPayload (some p) serviceId = none)
    (hMissUp : extractServiceFromDetailedPayload (some (w.upstream (pyUpper crsCode)))
        serviceId = none) :
    getServiceRoute w s crsCode serviceId true =
      (none,
        { detailsCache := fun k =>
            if k = pyUpper crsCode then some (w.upstream (pyUpper crsCode))
            else s.detailsCache k
          lastSeen := s.lastSeen
          routeCandidates := s.routeCandidates
          boardLog := (s.boardLog ++ [pyUpper crsCode]) ++ [pyUpper crsCode]
          fetchLog := s.fetchLog ++ [pyUpper crsCode] }) := by
  simp [getServiceRoute, getDetailedBoard, hCached, hMiss, hMissUp]

theorem getServiceRoute_uncachedMiss (w : RailWorld) (s : RailState)
    (crsCode serviceId : String)
    (hNone : s.detailsCache (pyUpper crsCode) = none)
    (hMissUp : extractServiceFromDetailedPayload (some (w.upstream (pyUpper crsCode)))
        serviceId = none) :
    getServiceRoute w s crsCode serviceId true =
      (none,
        { detailsCache := fun k =>
            if k = pyUpper crsCode then some (w.upstream (pyUpper crsCode))
            else s.detailsCache k
          lastSeen := s.lastSeen
          routeCandidates := s.routeCandidates
          boardLog := s.boardLog ++ [pyUpper crsCode]
          fetchLog := s.fetchLog ++ [pyUpper crsCode] }) := by
  simp [getServiceRoute, getDetailedBoard, hNone, hMissUp]

theorem getServiceRoute_uncachedHit (w : RailWorld) (s : RailState)
    (crsCode serviceId : String) (svc : RailServiceDetails)
    (hNone : s.detailsCache (pyUpper crsCode) = none)
    (hHit : extractServiceFromDetailedPayload (some (w.upstream (pyUpper crsCode)))
        serviceId = some svc) :
    getServiceRoute w s crsCode serviceId true =
      (some svc,
        cacheServiceTracking serviceId svc
          { detailsCache := fun k =>
              if k = pyUpper crsCode then some (w.upstream (pyUpper crsCode))
              else s.detailsCache k
            lastSeen := s.lastSeen
            routeCandidates := s.routeCandidates
            boardLog := s.boardLog ++ [pyUpper crsCode]
            fetchLog := s.fetchLog ++ [pyUpper crsCode] }) := by
  simp [getServiceRoute, getDetailedBoard, hNone, hHit]

theorem followCandidates_allMiss (w : RailWorld) (serviceId : String)
    (cs : List String) :
    ∀ s : RailState, cs.Nodup → (∀ c ∈ cs, pyUpper c = c) →
      (∀ c ∈ cs, s.detailsCache c = none) →
      (∀ c, extractServiceFromDetailedPayload (some (w.upstream c)) serviceId = none) →
      (followCandidates w serviceId true s cs).1 = none
        ∧ (followCandidates w serviceId true s cs).2.boardLog = s.boardLog ++ cs := by
  induction cs with
  | nil => intro s _ _ _ _; simp [followCandidates]
  | cons c rest ih =>
    intro s hnd hup hcache hmiss
    have hcUp : pyUpper c = c := hup c (List.mem_cons_self _ _)
    have hcNone : s.detailsCache (pyUpper c) = none := by
      rw [hcUp]; exact hcache c (List.mem_cons_self _ _)
    have hstep := getServiceRoute_uncachedMiss w s c serviceId hcNone (hmiss (pyUpper c))
    have hnd' := (List.nodup_cons.mp hnd).2
    have hnotmem := (List.nodup_cons.mp hnd).1
    simp only [followCandidates, hstep]
    have hrest := ih
      { detailsCache := fun k =>
          if k = pyUpper c then some (w.upstream (pyUpper c)) else s.detailsCache k
        lastSeen := s.lastSeen
        routeCandidates := s.routeCandidates
        boardLog := s.boardLog ++ [pyUpper c]
        fetchLog := s.fetchLog ++ [pyUpper c] }
      hnd' (fun x hx => hup x (List.mem_cons_of_mem _ hx))
      (fun x hx => by
        have hxc : x ≠ c := fun hxeq => hnotmem (hxeq ▸ hx)
        have : ¬ (x = pyUpper c) := by rw [hcUp]; exact hxc
        simp only [this, if_false]
        exact hcache x (List.mem_cons_of_mem _ hx))
      hmiss
    refine ⟨hrest.1, ?_⟩
    rw [hrest.2]
    simp [hcUp]

/-! ## Claim theorems -/

/-- C1, counterexample.  With the SQLite backend unavailable, `get` on key
`board:LHD` raises the backend error to its caller instead of returning a
miss, and `set`/`delete` raise as well instead of being swallowed. -/
theorem sqliteCache_failOpen_counterexample :
    SQLiteCache.get false (⟨[], 60⟩ : SQLiteCache Nat) "board:LHD" 0
        = .error .unavailable
      ∧ SQLiteCache.set false (⟨[], 60⟩ : SQLiteCache Nat) "board:LHD" 7 none 0
        = .error .unavailable
      ∧ SQLiteCache.delete false (⟨[], 60⟩ : SQLiteCache Nat) "board:LHD"
        = .error .unavailable :=
  ⟨rfl, rfl, rfl⟩

/-- C1, amended.  The cache layer contains no exception handling: whenever
the SQLite backend is unavailable, `get`, `set` and `delete` all propagate
the backend error to their caller (no fail-open miss, no swallowed write),
while on an available backend `get` never errors. -/
theorem sqliteCache_backend_failure_propagates (α : Type) (s : SQLiteCache α)
    (key : String) (value : α) (ttl : Option Int) (now : Int) :
    SQLiteCache.get false s key now = .error .unavailable
      ∧ SQLiteCache.set false s key value ttl now = .error .unavailable
      ∧ SQLiteCache.delete false s key = .error .unavailable
      ∧ ∃ r, SQLiteCache.get true s key now = .ok r := by
  refine ⟨rfl, rfl, rfl, ?_⟩
  rcases h : s.rows.find? (fun r => r.1 = key) with _ | row
  · exact ⟨(none, s), by simp [SQLiteCache.get, h]⟩
  · by_cases hle : row.2.2 ≤ now
    · exact ⟨(none, { s with rows := s.rows.filter (fun r => r.1 ≠ key) }),
        by simp [SQLiteCache.get, h, hle]⟩
    · exact ⟨(some row.2.1, s), by simp [SQLiteCache.get, h, hle]⟩

/-- C10, counterexample.  `set` with a negative TTL is passed through
unchanged by both backends, storing an entry that is already expired at its
creation instant (and the in-memory `get` at that same instant misses), so
storing an entry expired at creation is possible through the `set` interface. -/
theorem cacheSet_expired_at_creation_counterexample :
    ((SimpleCache.set (⟨[], 60⟩ : SimpleCache Nat) "k" 0 (some (-1)) 100).lookup
        "k").map (fun e => e.isExpired 100) = some true
      ∧ (SimpleCache.get (SimpleCache.set (⟨[], 60⟩ : SimpleCache Nat) "k" 0
          (some (-1)) 100) "k" 100).1 = none
      ∧ SQLiteCache.set true (⟨[], 60⟩ : SQLiteCache Nat) "k" 0 (some (-1)) 100
          = .ok ⟨[("k", 0, 99)], 60⟩
      ∧ (99 : Int) ≤ 100 := by
  refine ⟨rfl, rfl, rfl, by decide⟩

/-- C10, amended.  A TTL of `0` or `None` silently substitutes the configured
default TTL in both backends, so a zero-second lifetime cannot be requested;
but a negative TTL is kept as-is, so an entry that is expired at creation can
still be stored through `set`. -/
theorem cacheSet_zero_none_ttl_defaults (α : Type) (c : SimpleCache α)
    (s : SQLiteCache α) (key : String) (v : α) (now : Int) :
    (SimpleCache.set c key v none now).lookup key = some ⟨v, now, c.defaultTtl⟩
      ∧ (SimpleCache.set c key v (some 0) now).lookup key
          = some ⟨v, now, c.defaultTtl⟩
      ∧ (∃ s2, SQLiteCache.set true s key v none now = .ok s2
          ∧ s2.lookup key = some (v, now + s.defaultTtl))
      ∧ (∃ s2, SQLiteCache.set true s key v (some 0) now = .ok s2
          ∧ s2.lookup key = some (v, now + s.defaultTtl))
      ∧ (SimpleCache.set c key v (some (-1)) now).lookup key = some ⟨v, now, -1⟩ := by
  refine ⟨?_, ?_, ⟨_, rfl, ?_⟩, ⟨_, rfl, ?_⟩, ?_⟩ <;>
    simp [SimpleCache.set, SimpleCache.lookup, SQLiteCache.lookup, pyTtlOr,
      find?_filterNe_append]

/-- C5.  For every key, `set(k, v, ttl)` with a positive `ttl` followed by
`get(k)` strictly within `ttl` seconds returns `v`; once strictly more than
`ttl` seconds have elapsed, `get(k)` misses, removes the entry, and a
subsequent `size()` excludes it from the count. -/
theorem simpleCache_ttl_roundtrip (α : Type) (c : SimpleCache α) (key : String)
    (v : α) (ttl now1 now2 : Int) (hpos : 0 < ttl) :
    (now2 - now1 < ttl →
        ((SimpleCache.set c key v (some ttl) now1).get key now2).1 = some v)
      ∧ (ttl < now2 - now1 →
          ((SimpleCache.set c key v (some ttl) now1).get key now2).1 = none
            ∧ ((SimpleCache.set c key v (some ttl) now1).get key now2).2.lookup key
                = none
            ∧ ((SimpleCache.set c key v (some ttl) now1).get key now2).2.size
                = (SimpleCache.set c key v (some ttl) now1).size - 1) := by
  have hnz : ¬ ttl = 0 := by omega
  have ht : pyTtlOr (some ttl) c.defaultTtl = ttl := by
    simp [pyTtlOr, hnz]
  have hentries : (SimpleCache.set c key v (some ttl) now1).entries
      = c.entries.filter (fun e => e.1 ≠ key) ++ [(key, ⟨v, now1, ttl⟩)] := by
    simp [SimpleCache.set, ht]
  have hfind : ((SimpleCache.set c key v (some ttl) now1).entries).find?
      (fun e => e.1 = key) = some (key, ⟨v, now1, ttl⟩) := by
    rw [hentries]
    exact find?_filterNe_append _ _ _
  constructor
  · intro hlt
    have hexp : CacheEntry.isExpired (⟨v, now1, ttl⟩ : CacheEntry α) now2 = false := by
      simp only [CacheEntry.isExpired, decide_eq_false_iff_not, not_lt]
      omega
    simp [SimpleCache.get, hfind, hexp]
  · intro hgt
    have hexp : CacheEntry.isExpired (⟨v, now1, ttl⟩ : CacheEntry α) now2 = true := by
      simp only [CacheEntry.isExpired, decide_eq_true_eq]
      omega
    have hget : (SimpleCache.set c key v (some ttl) now1).get key now2
        = (none, { SimpleCache.set c key v (some ttl) now1 with
            entries := (SimpleCache.set c key v (some ttl) now1).entries.filter
              (fun e => e.1 ≠ key) }) := by
      simp [SimpleCache.get, hfind, hexp]
    refine ⟨?_, ?_, ?_⟩
    · rw [hget]
    · rw [hget]
      simp [SimpleCache.lookup, hentries, filterNe_append_self, find?_filterNe]
    · rw [hget]
      simp only [SimpleCache.size, hentries, filterNe_append_self]
      simp

/-- C5, witness at `ttl = 10`: a hit at 5 elapsed seconds and an expiring
miss at 11 elapsed seconds. -/
theorem simpleCache_ttl_roundtrip_witness :
    (0 : Int) < 10
      ∧ ((SimpleCache.set (⟨[], 60⟩ : SimpleCache Bool) "k" true (some 10) 0).get
          "k" 5).1 = some true
      ∧ ((SimpleCache.set (⟨[], 60⟩ : SimpleCache Bool) "k" true (some 10) 0).get
          "k" 11).1 = none :=
  ⟨by decide,
    (simpleCache_ttl_roundtrip Bool ⟨[], 60⟩ "k" true 10 0 5 (by decide)).1 (by decide),
    ((simpleCache_ttl_roundtrip Bool ⟨[], 60⟩ "k" true 10 0 11 (by decide)).2
      (by decide)).1⟩

/-- C8.  Scheduling a job key already in flight skips the work; two schedules
of the same key in immediate succession (both claim checks before either
finishes) execute the work exactly once; and for every outcome — success,
handled error, timeout, or unexpected exception — the in-flight marker is
released when the job finishes. -/
theorem prefetch_dedup_and_guaranteed_release (s : PrefetchState) (jobKey : String)
    (o1 o2 : JobOutcome) (h : jobKey ∉ s.activeJobKeys) :
    (claimJob s jobKey).1 = true
      ∧ (claimJob (claimJob s jobKey).2 jobKey).1 = false
      ∧ (scheduleTwiceInterleaved s jobKey o1 o2).startedJobs
          = s.startedJobs ++ [jobKey]
      ∧ jobKey ∉ (scheduleTwiceInterleaved s jobKey o1 o2).activeJobKeys
      ∧ (∀ s2 : PrefetchState, ∀ o : JobOutcome, jobKey ∈ s2.activeJobKeys →
          (runJob s2 jobKey o).startedJobs = s2.startedJobs)
      ∧ (∀ o : JobOutcome, jobKey ∉ (runJob s jobKey o).activeJobKeys) := by
  refine ⟨?_, ?_, ?_, ?_, ?_, ?_⟩
  · simp [claimJob, h]
  · simp [claimJob, h]
  · simp [scheduleTwiceInterleaved, claimJob, runJobRest, releaseJob, h]
  · simp [scheduleTwiceInterleaved, claimJob, runJobRest, releaseJob, h]
  · intro s2 o hmem
    simp [runJob, claimJob, runJobRest, hmem]
  · intro o
    simp [runJob, claimJob, runJobRest, releaseJob, h]

/-- C8, witness: fresh coordinator state, job key `nr-board:LHD`, first job
succeeds while the second schedule is skipped. -/
theorem prefetch_dedup_and_guaranteed_release_witness :
    "nr-board:LHD" ∉ (⟨[], [], []⟩ : PrefetchState).activeJobKeys
      ∧ (scheduleTwiceInterleaved ⟨[], [], []⟩ "nr-board:LHD"
          JobOutcome.success JobOutcome.timeout).startedJobs = ["nr-board:LHD"]
      ∧ "nr-board:LHD" ∉ (scheduleTwiceInterleaved ⟨[], [], []⟩ "nr-board:LHD"
          JobOutcome.success JobOutcome.timeout).activeJobKeys :=
  ⟨by decide,
    (prefetch_dedup_and_guaranteed_release ⟨[], [], []⟩ "nr-board:LHD"
      JobOutcome.success JobOutcome.timeout (by decide)).2.2.1,
    (prefetch_dedup_and_guaranteed_release ⟨[], [], []⟩ "nr-board:LHD"
      JobOutcome.success JobOutcome.timeout (by decide)).2.2.2.1⟩


/-- C9, counterexample.  `ABC` is a non-empty, already-trimmed, non-hub stop
id, yet after an earlier resolution of the same stop spelled `Abc` (which
cached `abc ↦ Abc`), resolving `ABC` returns the cached `Abc` — not the
trimmed id `ABC` — and caches nothing new. -/
theorem resolveStopPointId_nonhub_counterexample :
    (resolveStopPointId ["tube"] 30 tflErrWorld
        (resolveStopPointId ["tube"] 30 tflErrWorld emptyResolutionCache "Abc").2
        "ABC").1 = "Abc"
      ∧ "Abc" ≠ "ABC"
      ∧ pyStrip "ABC" = "ABC"
      ∧ pyStartsWith (pyUpper (pyStrip "ABC")) "HUB" = false := by
  refine ⟨rfl, by decide, by decide, by decide⟩

/-- C9, amended.  For every non-empty stop id whose trimmed form does not
start with `HUB` (case-insensitively), the function never fetches the stop
point's children (the result is independent of the upstream world); when the
resolution cache has no entry under the id's lowercased key it returns the
trimmed id unchanged and caches that identity mapping; when a non-empty
cached entry exists it returns that cached value with the cache untouched. -/
theorem resolveStopPointId_nonhub_behaviour (modes : List String) (cacheTtl : Int)
    (w wAlt : String → Except TflErr (List StopChild))
    (cacheMap : String → Option (String × Int)) (stopPointId : String)
    (hne : pyStrip stopPointId ≠ "")
    (hnothub : pyStartsWith (pyUpper (pyStrip stopPointId)) "HUB" = false) :
    resolveStopPointId modes cacheTtl w cacheMap stopPointId
        = resolveStopPointId modes cacheTtl wAlt cacheMap stopPointId
      ∧ (cacheMap (pyLower (pyStrip stopPointId)) = none →
          (resolveStopPointId modes cacheTtl w cacheMap stopPointId).1
              = pyStrip stopPointId
            ∧ (resolveStopPointId modes cacheTtl w cacheMap stopPointId).2
                (pyLower (pyStrip stopPointId))
                = some (pyStrip stopPointId, cacheTtl))
      ∧ (∀ value t, cacheMap (pyLower (pyStrip stopPointId)) = some (value, t) →
          value ≠ "" →
          resolveStopPointId modes cacheTtl w cacheMap stopPointId
            = (value, cacheMap)) := by
  refine ⟨?_, ?_, ?_⟩
  · simp [resolveStopPointId, hnothub]
  · intro hmiss
    simp [resolveStopPointId, hne, hnothub, hmiss]
  · intro value t hhit hval
    simp [resolveStopPointId, hne, hhit, hval]

/-- C9, witness for the amended claim: with an empty resolution cache,
resolving the non-hub id `ABC` returns `ABC` itself. -/
theorem resolveStopPointId_nonhub_behaviour_witness :
    pyStrip "ABC" ≠ ""
      ∧ pyStartsWith (pyUpper (pyStrip "ABC")) "HUB" = false
      ∧ (resolveStopPointId ["tube"] 30 tflErrWorld emptyResolutionCache "ABC").1
          = "ABC" := by
  refine ⟨by decide, by decide, ?_⟩
  have h := ((resolveStopPointId_nonhub_behaviour ["tube"] 30 tflErrWorld
    tflErrWorld emptyResolutionCache "ABC" (by decide) (by decide)).2.1 rfl).1
  rw [h]
  decide

/-- C2, counterexample.  Service `svc1` is absent everywhere; candidates are
`AAA` (the requested station, checked first) and `BBB` (from the tracking
hint), and both stations have cached detailed boards lacking the service.
The upstream fetch log of the run is `[AAA, BBB]`: the cache-bypass re-fetch
fired for the second candidate `BBB` as well, not only for the first. -/
theorem followBypass_subsequent_candidate_counterexample :
    (getServiceRouteFollowing emptyBoardsWorld (c2StateP ⟨"AAA", []⟩ ⟨"BBB", []⟩)
        "AAA" "svc1" true).2.fetchLog = ["AAA", "BBB"]
      ∧ "BBB" ∈ (getServiceRouteFollowing emptyBoardsWorld
          (c2StateP ⟨"AAA", []⟩ ⟨"BBB", []⟩) "AAA" "svc1" true).2.fetchLog
      ∧ (c2StateP ⟨"AAA", []⟩ ⟨"BBB", []⟩).detailsCache "BBB"
          = some ⟨"BBB", []⟩
      ∧ extractServiceFromDetailedPayload (some ⟨"BBB", []⟩) "svc1" = none := by
  refine ⟨rfl, by decide, rfl, rfl⟩

/-- C2, amended.  The cache-bypass re-fetch after a cached detailed board
produced no match is performed for every checked candidate, not only the
first: `get_service_route` re-fetches upstream on every cached miss it is
given, and a follow run over two candidates whose cached boards both lack
the service fetches both stations upstream. -/
theorem followBypass_applies_to_every_candidate (w : RailWorld)
    (pA pB : DetailedPayload)
    (hA : extractServiceFromDetailedPayload (some pA) "svc1" = none)
    (hB : extractServiceFromDetailedPayload (some pB) "svc1" = none)
    (hUpA : extractServiceFromDetailedPayload (some (w.upstream "AAA")) "svc1" = none)
    (hUpB : extractServiceFromDetailedPayload (some (w.upstream "BBB")) "svc1" = none) :
    (getServiceRouteFollowing w (c2StateP pA pB) "AAA" "svc1" true).2.fetchLog
        = ["AAA", "BBB"]
      ∧ ∀ (s : RailState) (crsCode serviceId : String) (p : DetailedPayload),
          s.detailsCache (pyUpper crsCode) = some p →
          extractServiceFromDetailedPayload (some p) serviceId = none →
          extractServiceFromDetailedPayload (some (w.upstream (pyUpper crsCode)))
            serviceId = none →
          (getServiceRoute w s crsCode serviceId true).2.fetchLog
            = s.fetchLog ++ [pyUpper crsCode] := by
  constructor
  · have hred : getServiceRouteFollowing w (c2StateP pA pB) "AAA" "svc1" true
        = followCandidates w "svc1" true (c2StateP pA pB) ["AAA", "BBB"] := rfl
    rw [hred]
    simp only [followCandidates]
    rw [getServiceRoute_cachedMiss w (c2StateP pA pB) "AAA" "svc1" pA rfl hA hUpA]
    simp only [followCandidates]
    rw [getServiceRoute_cachedMiss w _ "BBB" "svc1" pB rfl hB hUpB]
    have e1 : pyUpper "AAA" = "AAA" := by decide
    have e2 : pyUpper "BBB" = "BBB" := by decide
    dsimp only
    simp [c2StateP, e1, e2]
  · intro s crsCode serviceId p hCached hMiss hMissUp
    rw [getServiceRoute_cachedMiss w s crsCode serviceId p hCached hMiss hMissUp]

/-- C2, witness for the amended claim at empty boards everywhere. -/
theorem followBypass_applies_to_every_candidate_witness :
    (getServiceRouteFollowing emptyBoardsWorld (c2StateP ⟨"AAA", [⟨"xyz", [], []⟩]⟩
        ⟨"BBB", []⟩) "AAA" "svc1" true).2.fetchLog = ["AAA", "BBB"] :=
  (followBypass_applies_to_every_candidate emptyBoardsWorld ⟨"AAA", [⟨"xyz", [], []⟩]⟩
    ⟨"BBB", []⟩ (by decide) rfl rfl rfl).1

/-- C6.  For every board fetch that bypasses or misses the cache: an upstream
400 or 404 raises `BoardNotFoundError`; a 401, 403 or 5xx status, a timeout
or a connection error raises `RailAPIError` with status 503; and a row that
fails to parse is dropped while the snapshot is still built and returned
with the remaining valid rows. -/
theorem railGetBoard_error_mapping (cacheMap : String → Option RailBoardPayload)
    (crsCode : String) (useCache : Bool) (resp : RailResponse)
    (hBypass : useCache = false ∨ cacheMap (pyUpper crsCode) = none) :
    ((resp = .httpStatus 400 ∨ resp = .httpStatus 404) →
        railGetBoard cacheMap crsCode useCache resp = .error .boardNotFound)
      ∧ (∀ code, resp = .httpStatus code →
          (code = 401 ∨ code = 403 ∨ (500 ≤ code ∧ code < 600)) →
          railGetBoard cacheMap crsCode useCache resp = .error (.railApiError 503))
      ∧ (resp = .netError →
          railGetBoard cacheMap crsCode useCache resp = .error (.railApiError 503))
      ∧ (∀ data, resp = .ok data →
          ¬(optStrFalsy (parseRailBoard data).locationName
              ∧ optStrFalsy (parseRailBoard data).crs) →
          ∃ cm, railGetBoard cacheMap crsCode useCache resp
            = .ok ({ board := parseRailBoard data, fromCache := false }, cm))
      ∧ (∀ name crs pre suf,
          parseRailBoard ⟨name, crs, pre ++ none :: suf⟩
            = parseRailBoard ⟨name, crs, pre ++ suf⟩) := by
  have hcached : (if useCache then cacheMap (pyUpper crsCode) else none) = none := by
    rcases hBypass with h | h
    · simp [h]
    · cases useCache <;> simp [h]
  refine ⟨?_, ?_, ?_, ?_, ?_⟩
  · rintro (rfl | rfl) <;> simp [railGetBoard, hcached]
  · rintro code rfl (rfl | rfl | ⟨h5, h6⟩)
    · simp [railGetBoard, hcached]
    · simp [railGetBoard, hcached]
    · have h1 : ¬(code = 400 ∨ code = 404) := by omega
      have h2 : ¬(code = 401 ∨ code = 403) := by omega
      simp [railGetBoard, hcached, h1, h2, h5, h6]
  · rintro rfl
    simp [railGetBoard, hcached]
  · rintro data rfl hok
    refine ⟨fun k => if k = pyUpper crsCode then some data else cacheMap k, ?_⟩
    simp only [railGetBoard, hcached]
    rw [if_neg hok]
  · intro name crs pre suf
    simp [parseRailBoard, List.filterMap_append]

/-- C6, witness: empty cache, station `LHD`; a 404 maps to not-found, a 500
and a network error map to 503, and a payload with one malformed row among
three still yields a board with the two valid rows. -/
theorem railGetBoard_error_mapping_witness :
    ((fun _ => none : String → Option RailBoardPayload) (pyUpper "LHD") = none)
      ∧ railGetBoard (fun _ => none) "LHD" true (.httpStatus 404)
          = .error .boardNotFound
      ∧ railGetBoard (fun _ => none) "LHD" true (.httpStatus 500)
          = .error (.railApiError 503)
      ∧ railGetBoard (fun _ => none) "LHD" true .netError
          = .error (.railApiError 503)
      ∧ (∃ cm, railGetBoard (fun _ => none) "LHD" true (.ok c6Payload)
          = .ok ({ board := parseRailBoard c6Payload, fromCache := false }, cm))
      ∧ (parseRailBoard c6Payload).trains = [⟨some "s1"⟩, ⟨none⟩] := by
  refine ⟨rfl, ?_, ?_, ?_, ?_, by decide⟩
  · exact (railGetBoard_error_mapping (fun _ => none) "LHD" true (.httpStatus 404)
      (Or.inr rfl)).1 (Or.inr rfl)
  · exact (railGetBoard_error_mapping (fun _ => none) "LHD" true (.httpStatus 500)
      (Or.inr rfl)).2.1 500 rfl (Or.inr (Or.inr (by omega)))
  · exact (railGetBoard_error_mapping (fun _ => none) "LHD" true .netError
      (Or.inr rfl)).2.2.1 rfl
  · exact (railGetBoard_error_mapping (fun _ => none) "LHD" true (.ok c6Payload)
      (Or.inr rfl)).2.2.2.1 c6Payload rfl (by decide)

/-- C7.  For an uncached hub id: on any upstream failure the original id is
returned unchanged (the error is caught, never re-raised) and the identity
mapping is cached with the board TTL; when no child's modes intersect the
configured mode set the original id is likewise returned and cached; and
when the first mode-intersecting child carries a non-empty id, that child's
id is returned and cached with the board TTL. -/
theorem resolveStopPointId_hub_resolution (modes : List String) (cacheTtl : Int)
    (w : String → Except TflErr (List StopChild))
    (cacheMap : String → Option (String × Int)) (stopId : String)
    (hTrim : pyStrip stopId = stopId) (hne : stopId ≠ "")
    (hHub : pyStartsWith (pyUpper stopId) "HUB" = true)
    (hMiss : cacheMap (pyLower stopId) = none) :
    (∀ e, w stopId = .error e →
        (resolveStopPointId modes cacheTtl w cacheMap stopId).1 = stopId
          ∧ (resolveStopPointId modes cacheTtl w cacheMap stopId).2 (pyLower stopId)
              = some (stopId, cacheTtl))
      ∧ (∀ children, w stopId = .ok children →
          (∀ c ∈ children, c.modes.any (fun m => modes.contains m) = false) →
          (resolveStopPointId modes cacheTtl w cacheMap stopId).1 = stopId
            ∧ (resolveStopPointId modes cacheTtl w cacheMap stopId).2 (pyLower stopId)
                = some (stopId, cacheTtl))
      ∧ (∀ children c i, w stopId = .ok children →
          children.find? (fun c => c.modes.any (fun m => modes.contains m)) = some c →
          c.id = some i → i ≠ "" →
          (resolveStopPointId modes cacheTtl w cacheMap stopId).1 = i
            ∧ (resolveStopPointId modes cacheTtl w cacheMap stopId).2 (pyLower stopId)
                = some (i, cacheTtl)) := by
  refine ⟨?_, ?_, ?_⟩
  · intro e he
    simp [resolveStopPointId, hTrim, hne, hHub, hMiss, he]
  · intro children hok hnone
    have hpick := pickHubChild_of_no_intersection modes children hnone
    simp [resolveStopPointId, hTrim, hne, hHub, hMiss, hok, hpick]
  · intro children c i hok hfind hid hine
    have hpick := pickHubChild_first_match modes children c i hfind hid hine
    simp [resolveStopPointId, hTrim, hne, hHub, hMiss, hok, hpick]

/-- C7, witness: hub `HUBBDS` whose first child has no intersecting mode and
whose second child is the tube stop `940GZZLUBND`. -/
theorem resolveStopPointId_hub_resolution_witness :
    pyStrip "HUBBDS" = "HUBBDS"
      ∧ pyStartsWith (pyUpper "HUBBDS") "HUB" = true
      ∧ (resolveStopPointId ["tube"] 30 c7World emptyResolutionCache "HUBBDS").1
          = "940GZZLUBND"
      ∧ (resolveStopPointId ["tube"] 30 tflErrWorld emptyResolutionCache "HUBBDS").1
          = "HUBBDS" := by
  refine ⟨by decide, by decide, ?_, ?_⟩
  · exact ((resolveStopPointId_hub_resolution ["tube"] 30 c7World
      emptyResolutionCache "HUBBDS" (by decide) (by decide) (by decide) rfl).2.2
        c7Children ⟨some "940GZZLUBND", ["tube"]⟩ "940GZZLUBND" rfl (by decide) rfl
        (by decide)).1
  · exact ((resolveStopPointId_hub_resolution ["tube"] 30 tflErrWorld
      emptyResolutionCache "HUBBDS" (by decide) (by decide) (by decide) rfl).1
        TflErr.apiError rfl).1

theorem followCandidates_missPrefix (w : RailWorld) (serviceId : String)
    (cs : List String) : ∀ (s : RailState) (rest : List String), cs.Nodup →
      (∀ c ∈ cs, pyUpper c = c) → (∀ c ∈ cs, s.detailsCache c = none) →
      (∀ c ∈ cs, extractServiceFromDetailedPayload (some (w.upstream c)) serviceId
        = none) →
      ∃ s2 : RailState,
        followCandidates w serviceId true s (cs ++ rest)
            = followCandidates w serviceId true s2 rest
          ∧ s2.boardLog = s.boardLog ++ cs
          ∧ s2.lastSeen = s.lastSeen
          ∧ s2.routeCandidates = s.routeCandidates
          ∧ (∀ x, x ∉ cs → s2.detailsCache x = s.detailsCache x) := by
  induction cs with
  | nil =>
    intro s rest _ _ _ _
    exact ⟨s, by simp, by simp, rfl, rfl, fun x _ => rfl⟩
  | cons c cs ih =>
    intro s rest hnd hup hcache hmiss
    have hcUp : pyUpper c = c := hup c (List.mem_cons_self _ _)
    have hcNone : s.detailsCache (pyUpper c) = none := by
      rw [hcUp]
      exact hcache c (List.mem_cons_self _ _)
    have hcMiss : extractServiceFromDetailedPayload (some (w.upstream (pyUpper c)))
        serviceId = none := by
      rw [hcUp]
      exact hmiss c (List.mem_cons_self _ _)
    have hstep := getServiceRoute_uncachedMiss w s c serviceId hcNone hcMiss
    have hnotmem := (List.nodup_cons.mp hnd).1
    obtain ⟨s2, heq, hlog, hlast, hroute, hcachep⟩ := ih
      { detailsCache := fun k =>
          if k = pyUpper c then some (w.upstream (pyUpper c)) else s.detailsCache k
        lastSeen := s.lastSeen
        routeCandidates := s.routeCandidates
        boardLog := s.boardLog ++ [pyUpper c]
        fetchLog := s.fetchLog ++ [pyUpper c] }
      rest (List.nodup_cons.mp hnd).2
      (fun x hx => hup x (List.mem_cons_of_mem _ hx))
      (fun x hx => by
        have hxc : ¬ (x = pyUpper c) := by
          rw [hcUp]
          exact fun hxeq => hnotmem (hxeq ▸ hx)
        simp only [hxc, if_false]
        exact hcache x (List.mem_cons_of_mem _ hx))
      (fun x hx => hmiss x (List.mem_cons_of_mem _ hx))
    refine ⟨s2, ?_, ?_, hlast, hroute, ?_⟩
    · rw [List.cons_append]
      simp only [followCandidates, hstep]
      exact heq
    · rw [hlog, hcUp]
      simp
    · intro x hx
      have hx1 : x ∉ cs := fun hmem => hx (List.mem_cons_of_mem _ hmem)
      have hx2 : ¬ (x = pyUpper c) := by
        rw [hcUp]
        exact fun hxeq => hx (hxeq ▸ List.mem_cons_self _ _)
      rw [hcachep x hx1]
      simp [hx2]

/-- C3.  With last-seen station `LLL`, requested station `RRR` and cached
calling-point candidates `[LLL, CCA, CCB]` for service `svc1`, and the
service present only on `CCA`'s board: the stations are queried in the order
last-seen, requested, cached candidates (de-duplicated — `LLL` once), the
match from `CCA` is returned immediately, `CCB` is never queried, and the
tracking hint's last-seen entry becomes `CCA`.  With no match anywhere and
thirteen candidates, exactly `max_stations_to_check = 10` are queried in
order. -/
theorem followCandidateOrder_firstMatch (w wAll : RailWorld)
    (svc : RailServiceDetails)
    (hL : extractServiceFromDetailedPayload (some (w.upstream "LLL")) "svc1" = none)
    (hR : extractServiceFromDetailedPayload (some (w.upstream "RRR")) "svc1" = none)
    (hC : extractServiceFromDetailedPayload (some (w.upstream "CCA")) "svc1"
        = some svc)
    (hCrs : normalizeCrs (some svc.crs) = some "CCA")
    (hAll : ∀ c, extractServiceFromDetailedPayload (some (wAll.upstream c)) "svc1"
        = none) :
    (getServiceRouteFollowing w c3State "RRR" "svc1" true).1 = some svc
      ∧ (getServiceRouteFollowing w c3State "RRR" "svc1" true).2.boardLog
          = ["LLL", "RRR", "CCA"]
      ∧ "CCB" ∉ (getServiceRouteFollowing w c3State "RRR" "svc1" true).2.boardLog
      ∧ (getServiceRouteFollowing w c3State "RRR" "svc1" true).2.lastSeen "svc1"
          = some "CCA"
      ∧ (getServiceRouteFollowing wAll c3CapState "RRR" "svc1" true).1 = none
      ∧ (getServiceRouteFollowing wAll c3CapState "RRR" "svc1" true).2.boardLog
          = ["RRR", "CAA", "CAB", "CAC", "CAD", "CAE", "CAF", "CAG", "CAH", "CAI"] := by
  have eL : pyUpper "LLL" = "LLL" := by decide
  have eR : pyUpper "RRR" = "RRR" := by decide
  have eC : pyUpper "CCA" = "CCA" := by decide
  have hred : getServiceRouteFollowing w c3State "RRR" "svc1" true
      = followCandidates w "svc1" true c3State (["LLL", "RRR"] ++ ["CCA", "CCB"]) := rfl
  obtain ⟨s2, heq, hlog, hlast, -, hcachep⟩ :=
    followCandidates_missPrefix w "svc1" ["LLL", "RRR"] c3State ["CCA", "CCB"]
      (by decide) (by decide) (fun c _ => rfl)
      (fun c hc => by
        simp only [List.mem_cons, List.not_mem_nil, or_false] at hc
        rcases hc with rfl | rfl
        · exact hL
        · exact hR)
  have hCNone : s2.detailsCache (pyUpper "CCA") = none := by
    rw [eC, hcachep "CCA" (by decide)]
    rfl
  have hhit := getServiceRoute_uncachedHit w s2 "CCA" "svc1" svc hCNone (by rw [eC]; exact hC)
  have hmain : getServiceRouteFollowing w c3State "RRR" "svc1" true
      = (some svc,
          cacheServiceTracking "svc1" svc
            (cacheServiceTracking "svc1" svc
              { detailsCache := fun k =>
                  if k = pyUpper "CCA" then some (w.upstream (pyUpper "CCA"))
                  else s2.detailsCache k
                lastSeen := s2.lastSeen
                routeCandidates := s2.routeCandidates
                boardLog := s2.boardLog ++ [pyUpper "CCA"]
                fetchLog := s2.fetchLog ++ [pyUpper "CCA"] })) := by
    rw [hred, heq]
    simp only [followCandidates, hhit]
  have hlogMain : (getServiceRouteFollowing w c3State "RRR" "svc1" true).2.boardLog
      = ["LLL", "RRR", "CCA"] := by
    rw [hmain]
    have t1 := cacheServiceTracking_logs "svc1" svc
      { detailsCache := fun k =>
          if k = pyUpper "CCA" then some (w.upstream (pyUpper "CCA"))
          else s2.detailsCache k
        lastSeen := s2.lastSeen
        routeCandidates := s2.routeCandidates
        boardLog := s2.boardLog ++ [pyUpper "CCA"]
        fetchLog := s2.fetchLog ++ [pyUpper "CCA"] }
    have t2 := cacheServiceTracking_logs "svc1" svc
      (cacheServiceTracking "svc1" svc
        { detailsCache := fun k =>
            if k = pyUpper "CCA" then some (w.upstream (pyUpper "CCA"))
            else s2.detailsCache k
          lastSeen := s2.lastSeen
          routeCandidates := s2.routeCandidates
          boardLog := s2.boardLog ++ [pyUpper "CCA"]
          fetchLog := s2.fetchLog ++ [pyUpper "CCA"] })
    rw [t2.1, t1.1, hlog, eC]
    rfl
  refine ⟨?_, hlogMain, ?_, ?_, ?_, ?_⟩
  · rw [hmain]
  · rw [hlogMain]
    decide
  · rw [hmain]
    exact cacheServiceTracking_lastSeen "svc1" svc _ "CCA" hCrs
  · have hred2 : getServiceRouteFollowing wAll c3CapState "RRR" "svc1" true
        = followCandidates wAll "svc1" true c3CapState
            ["RRR", "CAA", "CAB", "CAC", "CAD", "CAE", "CAF", "CAG", "CAH", "CAI"] := rfl
    rw [hred2]
    exact (followCandidates_allMiss wAll "svc1" _ c3CapState (by decide) (by decide)
      (fun c _ => rfl) hAll).1
  · have hred2 : getServiceRouteFollowing wAll c3CapState "RRR" "svc1" true
        = followCandidates wAll "svc1" true c3CapState
            ["RRR", "CAA", "CAB", "CAC", "CAD", "CAE", "CAF", "CAG", "CAH", "CAI"] := rfl
    rw [hred2]
    rw [(followCandidates_allMiss wAll "svc1" _ c3CapState (by decide) (by decide)
      (fun c _ => rfl) hAll).2]
    rfl

/-- C3, witness: the concrete world where only `CCA`'s board lists `svc1`. -/
theorem followCandidateOrder_firstMatch_witness :
    (getServiceRouteFollowing c3MatchWorld c3State "RRR" "svc1" true).1
        = some ⟨"CCA", [], []⟩
      ∧ (getServiceRouteFollowing c3MatchWorld c3State "RRR" "svc1" true).2.boardLog
          = ["LLL", "RRR", "CCA"]
      ∧ (getServiceRouteFollowing c3MatchWorld c3State "RRR" "svc1"
          true).2.lastSeen "svc1" = some "CCA"
      ∧ (getServiceRouteFollowing emptyBoardsWorld c3CapState "RRR" "svc1"
          true).2.boardLog
          = ["RRR", "CAA", "CAB", "CAC", "CAD", "CAE", "CAF", "CAG", "CAH", "CAI"] := by
  have h := followCandidateOrder_firstMatch c3MatchWorld emptyBoardsWorld
    ⟨"CCA", [], []⟩ (by decide) (by decide) (by decide) (by decide) (fun c => rfl)
  exact ⟨h.1, h.2.1, h.2.2.2.1, h.2.2.2.2.2⟩

/-- C4.  Among candidates already filtered to the requested line, destination
and direction, disambiguation follows strict priority: an exact trip-id match
beats everything (in particular any closer-ETA candidate), then an exact
vehicle-id match, then the candidate nearest the hinted ETA (absolute time
delta when both timestamps exist, otherwise minutes-to-station), then the
first remaining candidate. -/
theorem clickDisambiguation_priority (predictions : List TflPrediction)
    (lineId toStopId : String) (direction tripId vehicleId : Option String)
    (expectedArrival : Option Int) :
    (pyStrip (tripId.getD "") ≠ "" →
        tripMatchesIn (clickCandidates predictions lineId toStopId direction)
          (pyStrip (tripId.getD "")) ≠ [] →
        ∃ r, matchPredictionForClick predictions lineId toStopId direction tripId
            vehicleId expectedArrival = some r
          ∧ r ∈ tripMatchesIn (clickCandidates predictions lineId toStopId direction)
              (pyStrip (tripId.getD "")))
      ∧ ((pyStrip (tripId.getD "") = ""
            ∨ tripMatchesIn (clickCandidates predictions lineId toStopId direction)
                (pyStrip (tripId.getD "")) = []) →
          pyStrip (vehicleId.getD "") ≠ "" →
          vehicleMatchesIn (clickCandidates predictions lineId toStopId direction)
            (pyStrip (vehicleId.getD "")) ≠ [] →
          ∃ r, matchPredictionForClick predictions lineId toStopId direction tripId
              vehicleId expectedArrival = some r
            ∧ r ∈ vehicleMatchesIn (clickCandidates predictions lineId toStopId
                direction) (pyStrip (vehicleId.getD "")))
      ∧ ((pyStrip (tripId.getD "") = ""
            ∨ tripMatchesIn (clickCandidates predictions lineId toStopId direction)
                (pyStrip (tripId.getD "")) = []) →
          (pyStrip (vehicleId.getD "") = ""
            ∨ vehicleMatchesIn (clickCandidates predictions lineId toStopId direction)
                (pyStrip (vehicleId.getD "")) = []) →
          expectedArrival.isSome →
          clickCandidates predictions lineId toStopId direction ≠ [] →
          ∃ r, matchPredictionForClick predictions lineId toStopId direction tripId
              vehicleId expectedArrival = some r
            ∧ r ∈ clickCandidates predictions lineId toStopId direction
            ∧ ∀ q ∈ clickCandidates predictions lineId toStopId direction,
                etaDistanceSeconds expectedArrival r
                  ≤ etaDistanceSeconds expectedArrival q)
      ∧ ((pyStrip (tripId.getD "") = ""
            ∨ tripMatchesIn (clickCandidates predictions lineId toStopId direction)
                (pyStrip (tripId.getD "")) = []) →
          (pyStrip (vehicleId.getD "") = ""
            ∨ vehicleMatchesIn (clickCandidates predictions lineId toStopId direction)
                (pyStrip (vehicleId.getD "")) = []) →
          expectedArrival = none →
          matchPredictionForClick predictions lineId toStopId direction tripId
              vehicleId expectedArrival
            = (clickCandidates predictions lineId toStopId direction).head?) := by
  rcases hc : clickCandidates predictions lineId toStopId direction with _ | ⟨c0, crest⟩
  · refine ⟨?_, ?_, ?_, ?_⟩
    · intro _ htm
      simp [tripMatchesIn] at htm
    · intro _ _ hvm
      simp [vehicleMatchesIn] at hvm
    · intro _ _ _ hcand
      exact absurd rfl hcand
    · intro _ _ _
      simp [matchPredictionForClick, hc]
  · refine ⟨?_, ?_, ?_, ?_⟩
    · intro ht htm
      have h1 : pyStrip (tripId.getD "") ≠ ""
          ∧ tripMatchesIn (c0 :: crest) (pyStrip (tripId.getD "")) ≠ [] := ⟨ht, htm⟩
      simp only [matchPredictionForClick, hc]
      rw [dif_pos h1]
      refine ⟨_, rfl, ?_⟩
      have hmem := pyMinBy_mem (etaDistanceSeconds expectedArrival)
        ((tripMatchesIn (c0 :: crest) (pyStrip (tripId.getD ""))).head h1.2)
        (tripMatchesIn (c0 :: crest) (pyStrip (tripId.getD ""))).tail
      rwa [List.head_cons_tail] at hmem
    · intro hor hv hvm
      have h1 : ¬(pyStrip (tripId.getD "") ≠ ""
          ∧ tripMatchesIn (c0 :: crest) (pyStrip (tripId.getD "")) ≠ []) := by
        rcases hor with h | h
        · exact fun hcon => hcon.1 h
        · exact fun hcon => hcon.2 h
      have h2 : pyStrip (vehicleId.getD "") ≠ ""
          ∧ vehicleMatchesIn (c0 :: crest) (pyStrip (vehicleId.getD "")) ≠ [] :=
        ⟨hv, hvm⟩
      simp only [matchPredictionForClick, hc]
      rw [dif_neg h1, dif_pos h2]
      refine ⟨_, rfl, ?_⟩
      have hmem := pyMinBy_mem (etaDistanceSeconds expectedArrival)
        ((vehicleMatchesIn (c0 :: crest) (pyStrip (vehicleId.getD ""))).head h2.2)
        (vehicleMatchesIn (c0 :: crest) (pyStrip (vehicleId.getD ""))).tail
      rwa [List.head_cons_tail] at hmem
    · intro hor1 hor2 hsome hne
      have h1 : ¬(pyStrip (tripId.getD "") ≠ ""
          ∧ tripMatchesIn (c0 :: crest) (pyStrip (tripId.getD "")) ≠ []) := by
        rcases hor1 with h | h
        · exact fun hcon => hcon.1 h
        · exact fun hcon => hcon.2 h
      have h2 : ¬(pyStrip (vehicleId.getD "") ≠ ""
          ∧ vehicleMatchesIn (c0 :: crest) (pyStrip (vehicleId.getD "")) ≠ []) := by
        rcases hor2 with h | h
        · exact fun hcon => hcon.1 h
        · exact fun hcon => hcon.2 h
      simp only [matchPredictionForClick, hc]
      rw [dif_neg h1, dif_neg h2, if_pos hsome]
      refine ⟨_, rfl, ?_, ?_⟩
      · exact pyMinBy_mem _ c0 crest
      · intro q hq
        exact pyMinBy_le _ c0 crest q hq
    · intro hor1 hor2 hnone
      have h1 : ¬(pyStrip (tripId.getD "") ≠ ""
          ∧ tripMatchesIn (c0 :: crest) (pyStrip (tripId.getD "")) ≠ []) := by
        rcases hor1 with h | h
        · exact fun hcon => hcon.1 h
        · exact fun hcon => hcon.2 h
      have h2 : ¬(pyStrip (vehicleId.getD "") ≠ ""
          ∧ vehicleMatchesIn (c0 :: crest) (pyStrip (vehicleId.getD "")) ≠ []) := by
        rcases hor2 with h | h
        · exact fun hcon => hcon.1 h
        · exact fun hcon => hcon.2 h
      simp only [matchPredictionForClick, hc]
      rw [dif_neg h1, dif_neg h2, hnone]
      simp

/-- C4, witness: both predictions share line, destination and direction;
`trip2` is requested while `c4P1` has the strictly closer ETA, yet the
prediction with trip id `trip2` is returned. -/
theorem clickDisambiguation_priority_witness :
    matchPredictionForClick [c4P1, c4P2] "victoria" "940GZZLUWWL" (some "inbound")
        (some "trip2") none (some 100) = some c4P2
      ∧ etaDistanceSeconds (some 100) c4P1 < etaDistanceSeconds (some 100) c4P2 := by
  constructor
  · obtain ⟨r, hres, hmem⟩ := (clickDisambiguation_priority [c4P1, c4P2] "victoria"
      "940GZZLUWWL" (some "inbound") (some "trip2") none (some 100)).1
      (by decide) (by decide)
    have htm : tripMatchesIn (clickCandidates [c4P1, c4P2] "victoria" "940GZZLUWWL"
        (some "inbound")) (pyStrip ((some "trip2").getD "")) = [c4P2] := by decide
    rw [htm] at hmem
    simp only [List.mem_singleton] at hmem
    rw [hres, hmem]
  · decide
